import Mathlib

/-!
Verification of the maraude-tracker backend (Node/Express + Sequelize)
against its natural-language specification.

The JavaScript source is shallowly embedded: dates are day numbers
(days since 1970-01-01, which was a Thursday), times of day are seconds
since midnight, the relational store is a record of lists of rows, and
each route handler becomes a pure function from store and request to a
result and an updated store.
-/

namespace Mapraude

/-- ISO weekday of an epoch-day number (days since 1970-01-01, a Thursday):
Monday = 1 .. Sunday = 7. This is the specification vocabulary, defined
independently of the JS helpers below. -/
def isoWeekday (d : Nat) : Nat := (d + 3) % 7 + 1

/-- Embeds the JS `Date.prototype.getDay` convention for the same day
numbering: Sunday = 0 .. Saturday = 6. Day 0 (1970-01-01) has getDay 4. -/
def jsGetDay (d : Nat) : Nat := (d + 4) % 7

/-- The current instant as the route handlers observe it: a calendar day
plus a time of day in seconds. -/
structure Clock where
  day : Nat
  secondsOfDay : Nat
deriving DecidableEq, Repr

/-- Result of `startTime.split(':').map(Number)` destructured to
`[hours, minutes]` in `getNextOccurrence`: only hours and minutes are
read (the JS then calls `setHours(hours, minutes, 0, 0)`). -/
structure HM where
  hours : Nat
  minutes : Nat
deriving DecidableEq, Repr

def HM.toSeconds (t : HM) : Nat := t.hours * 3600 + t.minutes * 60

/-- Embeds `const todayISO = today.getDay() === 0 ? 7 : today.getDay()`,
the inline Sunday correction used by the model methods and routes. -/
def todayIso (c : Clock) : Nat :=
  let d := jsGetDay c.day
  if d = 0 then 7 else d

/-- The columns of `maraude_actions` the verified claims depend on
(src/src/models/maraudeAction.js). `dayOfWeek` and `scheduledDate` are
nullable columns, hence `Option`. -/
structure MaraudeAction where
  id : Nat
  createdBy : Nat
  associationId : Nat
  isRecurring : Bool
  isActive : Bool
  dayOfWeek : Option Nat
  scheduledDate : Option Nat
  startTime : HM
deriving DecidableEq, Repr

/-- Embeds `MaraudeAction.prototype.isHappeningToday`
(src/src/models/maraudeAction.js lines 192-204). In the non-recurring
branch the JS compares the `scheduledDate` string with the ISO date of
now, embedded as equality of day numbers; a null `scheduledDate` yields
false. In the recurring branch `todayISO === this.dayOfWeek` is strict
equality against the nullable column. -/
def MaraudeAction.isHappeningToday (a : MaraudeAction) (c : Clock) : Bool :=
  if !a.isRecurring || !a.isActive then
    match a.scheduledDate with
    | some d => d == c.day
    | none => false
  else
    some (todayIso c) == a.dayOfWeek

/-- Embeds `MaraudeAction.prototype.getNextOccurrence`
(src/src/models/maraudeAction.js lines 206-233). A null `dayOfWeek`
coerces to 0 in the JS subtraction, hence `getD 0`. The strict
`today > startTimeToday` comparison is at seconds precision (the JS
zeroes seconds and milliseconds of the start instant). The result date
`today + daysUntilNext` is returned as a day number; a non-recurring or
inactive action returns its `scheduledDate` verbatim. -/
def MaraudeAction.getNextOccurrence (a : MaraudeAction) (c : Clock) : Option Nat :=
  if !a.isRecurring || !a.isActive then
    a.scheduledDate
  else
    let target : Int := (a.dayOfWeek.getD 0 : Nat)
    let d0 : Int := target - (todayIso c : Int)
    let d1 : Int := if d0 < 0 then d0 + 7 else d0
    let d2 : Int :=
      if d1 = 0 then
        if (c.secondsOfDay : Int) > (a.startTime.toSeconds : Int) then 7 else d1
      else d1
    some (c.day + d2.toNat)

/-- User roles (src/src/models, `role` ENUM). -/
inductive Role
  | admin
  | coordinator
  | volunteer
deriving DecidableEq, Repr

/-- The authenticated `req.user` fields the verified handlers read. -/
structure Actor where
  id : Nat
  role : Role
  associationId : Nat
deriving DecidableEq, Repr

/-- Report lifecycle states (src/src/models/maraudeReport.js `status` ENUM). -/
inductive ReportStatus
  | draft
  | submitted
  | validated
deriving DecidableEq, Repr

/-- The columns of `users` read by the report routes (creator display name). -/
structure UserRow where
  id : Nat
  firstName : String
  lastName : String
deriving DecidableEq, Repr

/-- A time of day at seconds precision, as stored in a TIME column. -/
structure HMS where
  hours : Nat
  minutes : Nat
  seconds : Nat
deriving DecidableEq, Repr

def HMS.toSeconds (t : HMS) : Nat := t.hours * 3600 + t.minutes * 60 + t.seconds

/-- The columns of `maraude_reports` the verified claims depend on
(src/src/models/maraudeReport.js). `createdAt` is the Sequelize
timestamp surfaced in the duplicate-conflict response. -/
structure MaraudeReport where
  id : Nat
  maraudeActionId : Nat
  reportDate : Nat
  startTime : HMS
  endTime : HMS
  beneficiariesCount : Nat
  volunteersCount : Nat
  generalNotes : Option String
  difficultiesEncountered : Option String
  positivePoints : Option String
  hasUrgentSituations : Bool
  urgentSituationsDetails : Option String
  status : ReportStatus
  createdBy : Nat
  createdAt : Nat
deriving DecidableEq, Repr

/-- Embeds `MaraudeReport.prototype.calculateDuration`
(src/src/models/maraudeReport.js lines 138-143): both times are placed on
the same fixed calendar day (2000-01-01) and the difference is returned
in minutes, so the value is negative whenever endTime precedes startTime. -/
def MaraudeReport.calculateDuration (r : MaraudeReport) : ℚ :=
  (((r.endTime.toSeconds : ℤ) - (r.startTime.toSeconds : ℤ) : ℤ) : ℚ) / 60

inductive AlertType
  | medical
  | social
  | security
  | housing
  | other
deriving DecidableEq, Repr

inductive Severity
  | low
  | medium
  | high
  | critical
deriving DecidableEq, Repr

/-- An alert payload as the report routes receive it, after the
per-field defaulting the POST handler performs (absent optional fields
become null). -/
structure AlertInput where
  alertType : AlertType
  severity : Severity
  locationLatitude : Option ℚ
  locationLongitude : Option ℚ
  locationAddress : Option String
  personDescription : Option String
  situationDescription : String
  actionTaken : Option String
  followUpRequired : Bool
  followUpNotes : Option String
deriving DecidableEq, Repr

/-- A row of `report_alerts`: the payload fields plus the owning report
id, mirroring the spread `ReportAlert.create(reportId, ...alert)`. -/
structure ReportAlert where
  reportId : Nat
  payload : AlertInput
deriving DecidableEq, Repr

/-- A distribution line item as received by the report routes. -/
structure DistInput where
  distributionTypeId : Nat
  quantity : Int
  notes : Option String
deriving DecidableEq, Repr

/-- A row of `report_distributions`. -/
structure ReportDistribution where
  reportId : Nat
  distributionTypeId : Nat
  quantity : Int
  notes : Option String
deriving DecidableEq, Repr

/-- Model-level validation of `report_distributions.quantity`
(src/src/models/reportDistribution.js: `validate: min 0`): a
`ReportDistribution.create` with a negative quantity throws. -/
def validDistribution (d : DistInput) : Bool := decide (0 ≤ d.quantity)

/-- Model-level validation of `report_alerts.situationDescription`
(src/unnamed/part_007: `allowNull: false, validate: notEmpty`). -/
def validAlert (al : AlertInput) : Bool := !(al.situationDescription == "")

/-- Sequential embedding of the child-insert loop for distributions: each
create either persists a row or throws on validation. The rows inserted
before the first failing one persist (there is no transaction in the
route); the Bool records whether every insert succeeded. -/
def insertDistributions (rid : Nat) : List DistInput → List ReportDistribution × Bool
  | [] => ([], true)
  | d :: ds =>
    if validDistribution d then
      let rest := insertDistributions rid ds
      (⟨rid, d.distributionTypeId, d.quantity, d.notes⟩ :: rest.1, rest.2)
    else ([], false)

/-- Sequential embedding of the child-insert loop for alerts, with the
same persist-until-failure semantics as `insertDistributions`. -/
def insertAlerts (rid : Nat) : List AlertInput → List ReportAlert × Bool
  | [] => ([], true)
  | al :: als =>
    if validAlert al then
      let rest := insertAlerts rid als
      (⟨rid, al⟩ :: rest.1, rest.2)
    else ([], false)

/-- The relational store the report routes touch: one list per table. -/
structure Store where
  actions : List MaraudeAction
  users : List UserRow
  reports : List MaraudeReport
  distributions : List ReportDistribution
  alerts : List ReportAlert
deriving DecidableEq, Repr

/-- The request body of POST /api/reports, already shaped by the
handler destructuring (absent optional text fields are null, counts
parsed to integers). -/
structure CreateReportInput where
  maraudeActionId : Nat
  reportDate : Nat
  startTime : HMS
  endTime : HMS
  beneficiariesCount : Nat
  volunteersCount : Nat
  generalNotes : Option String
  difficultiesEncountered : Option String
  positivePoints : Option String
  distributions : List DistInput
  alerts : List AlertInput
  urgentSituationsDetails : Option String
deriving DecidableEq, Repr

/-- Outcome of POST /api/reports. `conflict` carries exactly what the
409 body names: the existing report id, the formatted creator name and
the creation date. `errored` stands for the catch-all failure path that
a broken creator join would hit. -/
inductive CreateResult
  | notFound
  | forbidden
  | conflict (existingId : Nat) (creatorName : String) (createdAt : Nat)
  | badRequest
  | errored
  | created (reportId : Nat)
deriving DecidableEq, Repr

/-- Embeds the POST /api/reports handler (src/src/routes/reports.js
lines 306-461): resolve the action, check the association permission,
run the duplicate check, insert the header with auto-submitted status,
then insert distributions and alerts with no surrounding transaction;
a child validation failure is caught and answered with 400 while the
rows already inserted, the header included, stay in the store. `newId`
stands for the generated UUID and `now` for the creation timestamp. -/
def createReport (s : Store) (inp : CreateReportInput) (u : Actor)
    (newId : Nat) (now : Nat) : CreateResult × Store :=
  match s.actions.find? (fun a => a.id == inp.maraudeActionId) with
  | none => (.notFound, s)
  | some act =>
    if u.role ≠ Role.admin ∧ act.associationId ≠ u.associationId then
      (.forbidden, s)
    else
      match s.reports.find? (fun r =>
          r.maraudeActionId == inp.maraudeActionId && r.reportDate == inp.reportDate) with
      | some ex =>
        match s.users.find? (fun us => us.id == ex.createdBy) with
        | some cu =>
          (.conflict ex.id (cu.firstName ++ " " ++ cu.lastName) ex.createdAt, s)
        | none => (.errored, s)
      | none =>
        let header : MaraudeReport :=
          { id := newId
            maraudeActionId := inp.maraudeActionId
            reportDate := inp.reportDate
            startTime := inp.startTime
            endTime := inp.endTime
            beneficiariesCount := inp.beneficiariesCount
            volunteersCount := inp.volunteersCount
            generalNotes := inp.generalNotes
            difficultiesEncountered := inp.difficultiesEncountered
            positivePoints := inp.positivePoints
            hasUrgentSituations := !inp.alerts.isEmpty || inp.urgentSituationsDetails.isSome
            urgentSituationsDetails := inp.urgentSituationsDetails
            status := ReportStatus.submitted
            createdBy := u.id
            createdAt := now }
        let s1 : Store := { s with reports := s.reports ++ [header] }
        let dres := insertDistributions newId inp.distributions
        let s2 : Store := { s1 with distributions := s1.distributions ++ dres.1 }
        if !dres.2 then (.badRequest, s2)
        else
          let ares := insertAlerts newId inp.alerts
          let s3 : Store := { s2 with alerts := s2.alerts ++ ares.1 }
          if !ares.2 then (.badRequest, s3)
          else (.created newId, s3)

/-- Embeds the `canEdit` expression of PUT /api/reports/:id
(src/src/routes/reports.js lines 480-485): creator, or
coordinator/admin of the same association, or any admin. -/
def canEditReport (r : MaraudeReport) (act : MaraudeAction) (u : Actor) : Bool :=
  r.createdBy == u.id ||
  (u.associationId == act.associationId &&
    (u.role == Role.coordinator || u.role == Role.admin)) ||
  u.role == Role.admin

/-- The PUT /api/reports/:id body: `distributions` and `alerts` are
separated from the scalar patch by the handler destructuring; an absent
key is `none`. The scalar patch is embedded for a representative subset
of the report columns. -/
structure ReportPatch where
  startTime : Option HMS
  endTime : Option HMS
  beneficiariesCount : Option Nat
  volunteersCount : Option Nat
  generalNotes : Option (Option String)
  status : Option ReportStatus
  distributions : Option (List DistInput)
  alerts : Option (List AlertInput)
deriving DecidableEq, Repr

/-- Embeds `report.update(reportData)` for the scalar columns carried by
`ReportPatch`. -/
def applyScalarPatch (r : MaraudeReport) (p : ReportPatch) : MaraudeReport :=
  { r with
    startTime := p.startTime.getD r.startTime
    endTime := p.endTime.getD r.endTime
    beneficiariesCount := p.beneficiariesCount.getD r.beneficiariesCount
    volunteersCount := p.volunteersCount.getD r.volunteersCount
    generalNotes := p.generalNotes.getD r.generalNotes
    status := p.status.getD r.status }

/-- Outcome of PUT /api/reports/:id. -/
inductive UpdateResult
  | notFound
  | forbidden
  | badRequest
  | errored
  | ok (reportId : Nat)
deriving DecidableEq, Repr

/-- Embeds the distributions branch of PUT /api/reports/:id: when the
key is present, destroy every ReportDistribution row of this report and
insert the replacement set; the Bool records insert success. -/
def replaceDistributions (s : Store) (rid : Nat) :
    Option (List DistInput) → Store × Bool
  | none => (s, true)
  | some ds =>
    let base := s.distributions.filter (fun d => !(d.reportId == rid))
    let rows := insertDistributions rid ds
    ({ s with distributions := base ++ rows.1 }, rows.2)

/-- Embeds the alerts branch of PUT /api/reports/:id, with the same
delete-all-then-insert semantics as `replaceDistributions`. -/
def replaceAlerts (s : Store) (rid : Nat) :
    Option (List AlertInput) → Store × Bool
  | none => (s, true)
  | some als =>
    let base := s.alerts.filter (fun al => !(al.reportId == rid))
    let rows := insertAlerts rid als
    ({ s with alerts := base ++ rows.1 }, rows.2)

/-- Embeds the PUT /api/reports/:id handler (src/src/routes/reports.js
lines 464-576): load the report and its action, check `canEdit`, reject
a validated report for non-admin actors, apply the scalar patch, then
wholesale-replace distributions and alerts when their keys are present.
`errored` stands for the crash the handler would hit if the action join
were broken (the FK rules it out on real data). -/
def updateReport (s : Store) (rid : Nat) (p : ReportPatch) (u : Actor) :
    UpdateResult × Store :=
  match s.reports.find? (fun r => r.id == rid) with
  | none => (.notFound, s)
  | some r =>
    match s.actions.find? (fun a => a.id == r.maraudeActionId) with
    | none => (.errored, s)
    | some act =>
      if !(canEditReport r act u) then (.forbidden, s)
      else if r.status == ReportStatus.validated && !(u.role == Role.admin) then
        (.forbidden, s)
      else
        let r2 := applyScalarPatch r p
        let s1 : Store :=
          { s with reports := s.reports.map (fun x => if x.id == rid then r2 else x) }
        let dstep := replaceDistributions s1 rid p.distributions
        if !dstep.2 then (.badRequest, dstep.1)
        else
          let astep := replaceAlerts dstep.1 rid p.alerts
          if !astep.2 then (.badRequest, astep.1)
          else (.ok rid, astep.1)

/-- Embeds the computed `duration` field attached by GET /api/reports/:id
(src/src/routes/reports.js lines 289-294). -/
def getReportDuration (s : Store) (rid : Nat) : Option ℚ :=
  (s.reports.find? (fun r => r.id == rid)).map MaraudeReport.calculateDuration

/-- Embeds the `canEdit` expression of PUT /api/maraudes/:id in the
mounted route file (src/src/routes/maraudes.js lines 367-371): creator,
or coordinator/admin of the same association — with no standalone admin
clause. -/
def canEditMaraude (a : MaraudeAction) (u : Actor) : Bool :=
  a.createdBy == u.id ||
  (u.associationId == a.associationId &&
    (u.role == Role.coordinator || u.role == Role.admin))

/-- Embeds the `canEdit` expression of the alternate revision of the
maraudes route shipped in the repository (embedded after auth.js, lines
624-629): the same check plus the unconditional admin clause. -/
def canEditMaraudeVariant (a : MaraudeAction) (u : Actor) : Bool :=
  a.createdBy == u.id ||
  (u.associationId == a.associationId &&
    (u.role == Role.coordinator || u.role == Role.admin)) ||
  u.role == Role.admin

/-- Model-level validation of `maraude_actions.dayOfWeek`
(src/src/models/maraudeAction.js: `validate: min 1, max 7` on a nullable
column): a non-null value outside 1..7 makes create/update throw. -/
def validDayOfWeek : Option Nat → Bool
  | some d => decide (1 ≤ d) && decide (d ≤ 7)
  | none => true

/-- Route errors of the maraudes handlers. -/
inductive MaraudeErr
  | badRequest
  | forbidden
  | validationFailed
deriving DecidableEq, Repr

/-- The POST /api/maraudes body fields the scheduling logic reads. An
absent `isRecurring` defaults to true in the handler destructuring;
coordinates keep the JS falsiness check (missing or zero is rejected). -/
structure CreateMaraudeInput where
  dayOfWeek : Option Nat
  isRecurring : Option Bool
  scheduledDate : Option Nat
  startLatitude : Option ℚ
  startLongitude : Option ℚ
  startTime : HM
deriving DecidableEq, Repr

/-- Embeds the POST /api/maraudes handler scheduling path
(src/src/routes/maraudes.js lines 248-353): validate that a recurring
action carries a dayOfWeek and a one-time action a scheduledDate, build
`cleanData` with `dayOfWeek = isRecurring ? dayOfWeek : null` and
`scheduledDate = !isRecurring ? scheduledDate : null`, then run the
Sequelize model validation on create. -/
def createMaraudeAction (inp : CreateMaraudeInput) (u : Actor) (newId : Nat) :
    Except MaraudeErr MaraudeAction :=
  let isRecurring := inp.isRecurring.getD true
  if isRecurring && inp.dayOfWeek.isNone then .error .badRequest
  else if !isRecurring && inp.scheduledDate.isNone then .error .badRequest
  else if inp.startLatitude.getD 0 == 0 || inp.startLongitude.getD 0 == 0 then
    .error .badRequest
  else
    let row : MaraudeAction :=
      { id := newId
        createdBy := u.id
        associationId := u.associationId
        isRecurring := isRecurring
        isActive := true
        dayOfWeek := if isRecurring then inp.dayOfWeek else none
        scheduledDate := if !isRecurring then inp.scheduledDate else none
        startTime := inp.startTime }
    if validDayOfWeek row.dayOfWeek then .ok row else .error .validationFailed

/-- The PUT /api/maraudes/:id body fields the scheduling logic reads; an
absent key is `none`. -/
structure UpdateMaraudeInput where
  dayOfWeek : Option Nat
  isRecurring : Option Bool
  scheduledDate : Option Nat
  isActive : Option Bool
  startTime : Option HM
deriving DecidableEq, Repr

/-- Embeds the PUT /api/maraudes/:id handler scheduling path of the
mounted route file (src/src/routes/maraudes.js lines 356-490): check
`canEdit`, validate the recurrence fields when `isRecurring` is present
in the patch, update the scheduling triple atomically when it is, leave
it untouched when it is not, and run the model validation on update. -/
def updateMaraudeAction (a : MaraudeAction) (inp : UpdateMaraudeInput) (u : Actor) :
    Except MaraudeErr MaraudeAction :=
  if !(canEditMaraude a u) then .error .forbidden
  else if (match inp.isRecurring with
           | some true => inp.dayOfWeek.isNone
           | _ => false) then .error .badRequest
  else if (match inp.isRecurring with
           | some false => inp.scheduledDate.isNone
           | _ => false) then .error .badRequest
  else
    let base : MaraudeAction :=
      { a with
        isActive := inp.isActive.getD a.isActive
        startTime := inp.startTime.getD a.startTime }
    let row : MaraudeAction :=
      match inp.isRecurring with
      | none => base
      | some rcr =>
        { base with
          isRecurring := rcr
          dayOfWeek := if rcr then inp.dayOfWeek else none
          scheduledDate := if rcr then none else inp.scheduledDate }
    if validDayOfWeek row.dayOfWeek then .ok row else .error .validationFailed

/-- The recurrence-exclusivity invariant of the specification: a
recurring action has a dayOfWeek in 1..7 and no scheduledDate, a
one-time action has a scheduledDate and no dayOfWeek. -/
def recurrenceExclusive (a : MaraudeAction) : Prop :=
  (a.isRecurring = true →
    (∃ d, a.dayOfWeek = some d ∧ 1 ≤ d ∧ d ≤ 7) ∧ a.scheduledDate = none) ∧
  (a.isRecurring = false →
    a.scheduledDate ≠ none ∧ a.dayOfWeek = none)

/-- Sample recurring action scheduled on Thursday (day 0 of the epoch is
a Thursday, ISO weekday 4), starting at 10:00. -/
def sampleAction : MaraudeAction :=
  { id := 1, createdBy := 1, associationId := 10, isRecurring := true,
    isActive := true, dayOfWeek := some 4, scheduledDate := none,
    startTime := ⟨10, 0⟩ }

/-- Sample creator of the pre-existing report. -/
def sampleUser : UserRow := { id := 7, firstName := "Jean", lastName := "Dupont" }

/-- Sample pre-existing report for `sampleAction` on day 100. -/
def sampleReport : MaraudeReport :=
  { id := 42, maraudeActionId := 1, reportDate := 100,
    startTime := ⟨18, 0, 0⟩, endTime := ⟨20, 0, 0⟩,
    beneficiariesCount := 12, volunteersCount := 3,
    generalNotes := none, difficultiesEncountered := none,
    positivePoints := none, hasUrgentSituations := false,
    urgentSituationsDetails := none, status := ReportStatus.submitted,
    createdBy := 7, createdAt := 55 }

/-- Sample store holding one action, its creator user and one report. -/
def sampleStore : Store :=
  { actions := [sampleAction], users := [sampleUser],
    reports := [sampleReport], distributions := [], alerts := [] }

/-- Sample volunteer of the same association as `sampleAction`. -/
def sampleVolunteer : Actor := { id := 7, role := Role.volunteer, associationId := 10 }

/-- Sample admin of a different association who did not create
`sampleAction`. -/
def sampleForeignAdmin : Actor := { id := 2, role := Role.admin, associationId := 20 }

/-- Sample creation request that duplicates `sampleReport`. -/
def sampleDupInput : CreateReportInput :=
  { maraudeActionId := 1, reportDate := 100,
    startTime := ⟨18, 0, 0⟩, endTime := ⟨21, 0, 0⟩,
    beneficiariesCount := 5, volunteersCount := 2,
    generalNotes := none, difficultiesEncountered := none,
    positivePoints := none, distributions := [], alerts := [],
    urgentSituationsDetails := none }

/-- Sample store with one action and no reports yet. -/
def emptyReportStore : Store :=
  { actions := [sampleAction], users := [sampleUser],
    reports := [], distributions := [], alerts := [] }

/-- Sample creation request whose only distribution fails the model
validation (negative quantity). -/
def sampleBadChildInput : CreateReportInput :=
  { maraudeActionId := 1, reportDate := 200,
    startTime := ⟨18, 0, 0⟩, endTime := ⟨20, 0, 0⟩,
    beneficiariesCount := 4, volunteersCount := 2,
    generalNotes := none, difficultiesEncountered := none,
    positivePoints := none,
    distributions := [⟨5, -1, none⟩], alerts := [],
    urgentSituationsDetails := none }

/-- Sample validated report created by `sampleVolunteer`. -/
def sampleValidatedReport : MaraudeReport :=
  { sampleReport with id := 43, reportDate := 101, status := ReportStatus.validated }

/-- Sample store holding the validated report. -/
def sampleValidatedStore : Store :=
  { actions := [sampleAction], users := [sampleUser],
    reports := [sampleValidatedReport], distributions := [], alerts := [] }

/-- Sample patch that only bumps a scalar counter. -/
def sampleScalarPatch : ReportPatch :=
  { startTime := none, endTime := none, beneficiariesCount := some 99,
    volunteersCount := none, generalNotes := none, status := none,
    distributions := none, alerts := none }

/-- Sample replacement alert payload. -/
def sampleAlert : AlertInput :=
  { alertType := AlertType.medical, severity := Severity.high,
    locationLatitude := none, locationLongitude := none,
    locationAddress := none, personDescription := none,
    situationDescription := "personne en danger", actionTaken := none,
    followUpRequired := false, followUpNotes := none }

/-- Sample store for the child-replacement scenario: the report owns two
distribution rows and one alert row. -/
def sampleChildStore : Store :=
  { actions := [sampleAction], users := [sampleUser],
    reports := [sampleReport],
    distributions := [⟨42, 5, 10, none⟩, ⟨42, 6, 20, none⟩],
    alerts := [⟨42, sampleAlert⟩] }

/-- Sample patch replacing the alerts and leaving distributions alone. -/
def sampleAlertsPatch : ReportPatch :=
  { startTime := none, endTime := none, beneficiariesCount := none,
    volunteersCount := none, generalNotes := none, status := none,
    distributions := none,
    alerts := some [{ sampleAlert with severity := Severity.critical }] }

/-- Store produced by the sample child-replacement update. -/
def sampleChildStoreAfter : Store :=
  (updateReport sampleChildStore 42 sampleAlertsPatch sampleVolunteer).2

/-- Sample scheduling patch leaving the recurrence fields untouched. -/
def sampleMaraudePatch : UpdateMaraudeInput :=
  { dayOfWeek := none, isRecurring := none, scheduledDate := none,
    isActive := none, startTime := none }

/-- Sample POST /api/maraudes body for a recurring Wednesday action. -/
def sampleCreateMaraude : CreateMaraudeInput :=
  { dayOfWeek := some 3, isRecurring := some true, scheduledDate := none,
    startLatitude := some 44, startLongitude := some 1,
    startTime := ⟨18, 0⟩ }

/-- Row produced by the sample recurring creation. -/
def sampleCreatedRow : MaraudeAction :=
  { id := 5, createdBy := 7, associationId := 10, isRecurring := true,
    isActive := true, dayOfWeek := some 3, scheduledDate := none,
    startTime := ⟨18, 0⟩ }

/-- Sample patch switching `sampleCreatedRow` to a one-time action. -/
def sampleSwitchPatch : UpdateMaraudeInput :=
  { dayOfWeek := none, isRecurring := some false, scheduledDate := some 200,
    isActive := none, startTime := none }

/-- Row produced by applying `sampleSwitchPatch` to `sampleCreatedRow`. -/
def sampleSwitchedRow : MaraudeAction :=
  { sampleCreatedRow with
    isRecurring := false
    dayOfWeek := none
    scheduledDate := some 200 }

/-- Sample overnight report: starts 22:00, ends 02:30 the next morning. -/
def sampleOvernightReport : MaraudeReport :=
  { sampleReport with
    id := 44
    reportDate := 102
    startTime := ⟨22, 0, 0⟩
    endTime := ⟨2, 30, 0⟩ }

/-- Sample store holding the overnight report. -/
def sampleOvernightStore : Store :=
  { actions := [sampleAction], users := [sampleUser],
    reports := [sampleOvernightReport], distributions := [], alerts := [] }

theorem todayIso_eq_isoWeekday (c : Clock) : todayIso c = isoWeekday c.day := by
  simp only [todayIso, jsGetDay, isoWeekday]
  split <;> omega

theorem todayIso_bounds (c : Clock) : 1 ≤ todayIso c ∧ todayIso c ≤ 7 := by
  simp only [todayIso, jsGetDay]
  split <;> omega

/-- Claim C8: for a non-recurring or inactive action, isHappeningToday
holds exactly when scheduledDate equals the current calendar date; for a
recurring active action, exactly when the ISO weekday of the current
date (Monday = 1 .. Sunday = 7) equals dayOfWeek. -/
theorem isHappeningToday_spec (a : MaraudeAction) (c : Clock) :
    a.isHappeningToday c = true ↔
      (if a.isRecurring = false ∨ a.isActive = false then
        a.scheduledDate = some c.day
      else a.dayOfWeek = some (isoWeekday c.day)) := by
  cases hr : a.isRecurring <;> cases ha : a.isActive <;>
    simp only [MaraudeAction.isHappeningToday, hr, ha, Bool.not_true,
      Bool.not_false, Bool.or_true, Bool.true_or, Bool.or_self,
      if_true, if_false, todayIso_eq_isoWeekday] <;>
    simp only [eq_self_iff_true, true_or, or_true, if_true,
      Bool.true_eq_false, false_or, or_false, if_false]
  case false.false =>
    cases a.scheduledDate <;> simp
  case false.true =>
    cases a.scheduledDate <;> simp
  case true.false =>
    cases a.scheduledDate <;> simp
  case true.true =>
    simp only [Bool.false_eq_true, if_false, beq_iff_eq]
    exact eq_comm

/-- Claim C1: for a recurring active action whose dayOfWeek is the ISO
weekday of the current date, getNextOccurrence returns the current date
while the time of day has not passed startTime, and the date seven days
ahead once it has. -/
theorem nextOccurrence_rollover (a : MaraudeAction) (c : Clock)
    (hr : a.isRecurring = true) (ha : a.isActive = true)
    (hd : a.dayOfWeek = some (isoWeekday c.day)) :
    (c.secondsOfDay ≤ a.startTime.toSeconds →
      a.getNextOccurrence c = some c.day) ∧
    (a.startTime.toSeconds < c.secondsOfDay →
      a.getNextOccurrence c = some (c.day + 7)) := by
  constructor <;> intro h <;>
    simp only [MaraudeAction.getNextOccurrence, hr, ha, hd,
      todayIso_eq_isoWeekday, Bool.not_true, Bool.or_self, Bool.false_eq_true,
      if_false, Option.getD_some, sub_self] <;>
    split_ifs <;> simp_all <;> omega

/-- Claim C2: for a recurring active action with dayOfWeek D in 1..7,
getNextOccurrence returns a date at or after the current date whose ISO
weekday is D. -/
theorem nextOccurrence_future_weekday (a : MaraudeAction) (c : Clock) (D : Nat)
    (hr : a.isRecurring = true) (ha : a.isActive = true)
    (hd : a.dayOfWeek = some D) (h1 : 1 ≤ D) (h7 : D ≤ 7) :
    ∃ r, a.getNextOccurrence c = some r ∧ c.day ≤ r ∧ isoWeekday r = D := by
  simp only [MaraudeAction.getNextOccurrence, hr, ha, hd,
    todayIso_eq_isoWeekday, Bool.not_true, Bool.or_self, Bool.false_eq_true,
    if_false, Option.getD_some]
  refine ⟨_, rfl, Nat.le_add_right _ _, ?_⟩
  simp only [isoWeekday]
  split_ifs <;> omega

theorem nextOccurrence_rollover_witness :
    sampleAction.dayOfWeek = some (isoWeekday 0) ∧
    sampleAction.getNextOccurrence ⟨0, 9 * 3600⟩ = some 0 ∧
    sampleAction.getNextOccurrence ⟨0, 11 * 3600⟩ = some 7 :=
  ⟨by decide,
   (nextOccurrence_rollover sampleAction ⟨0, 9 * 3600⟩ (by decide) (by decide)
      (by decide)).1 (by decide),
   (nextOccurrence_rollover sampleAction ⟨0, 11 * 3600⟩ (by decide) (by decide)
      (by decide)).2 (by decide)⟩

theorem nextOccurrence_future_weekday_witness :
    sampleAction.dayOfWeek = some 4 ∧
    ∃ r, sampleAction.getNextOccurrence ⟨1, 0⟩ = some r ∧ 1 ≤ r ∧ isoWeekday r = 4 :=
  ⟨by decide,
   nextOccurrence_future_weekday sampleAction ⟨1, 0⟩ 4 (by decide) (by decide)
     (by decide) (by decide) (by decide)⟩

theorem insertDistributions_ok_iff (rid : Nat) (ds : List DistInput) :
    (insertDistributions rid ds).2 = ds.all validDistribution := by
  induction ds with
  | nil => rfl
  | cons d ds ih =>
    cases hv : validDistribution d <;>
      simp [insertDistributions, hv, ih]

theorem insertAlerts_ok_iff (rid : Nat) (als : List AlertInput) :
    (insertAlerts rid als).2 = als.all validAlert := by
  induction als with
  | nil => rfl
  | cons al als ih =>
    cases hv : validAlert al <;>
      simp [insertAlerts, hv, ih]

theorem insertDistributions_rows_of_ok (rid : Nat) (ds : List DistInput)
    (h : (insertDistributions rid ds).2 = true) :
    (insertDistributions rid ds).1 =
      ds.map (fun d => ⟨rid, d.distributionTypeId, d.quantity, d.notes⟩) := by
  induction ds with
  | nil => rfl
  | cons d ds ih =>
    cases hv : validDistribution d
    · simp [insertDistributions, hv] at h
    · simp only [insertDistributions, hv, if_true, List.map_cons]
      simp only [insertDistributions, hv, if_true] at h
      rw [ih h]

theorem insertAlerts_rows_of_ok (rid : Nat) (als : List AlertInput)
    (h : (insertAlerts rid als).2 = true) :
    (insertAlerts rid als).1 = als.map (fun al => ⟨rid, al⟩) := by
  induction als with
  | nil => rfl
  | cons al als ih =>
    cases hv : validAlert al
    · simp [insertAlerts, hv] at h
    · simp only [insertAlerts, hv, if_true, List.map_cons]
      simp only [insertAlerts, hv, if_true] at h
      rw [ih h]

theorem filter_not_filter {α : Type} (p : α → Bool) (l : List α) :
    (l.filter (fun x => !p x)).filter p = [] := by
  induction l with
  | nil => rfl
  | cons a l ih =>
    cases h : p a <;> simp [List.filter_cons, h, ih]

theorem filter_map_all {α β : Type} (p : β → Bool) (f : α → β) (l : List α)
    (h : ∀ x, p (f x) = true) :
    (l.map f).filter p = l.map f := by
  induction l with
  | nil => rfl
  | cons a l ih => simp [List.filter_cons, h, ih]

/-- Claim C3: when a report already exists for the same action and date,
POST /api/reports answers Conflict naming the id, creator and creation
date of the existing report, leaves the store untouched, and therefore
keeps exactly one report for that pair. -/
theorem createReport_duplicate_conflict
    (s : Store) (inp : CreateReportInput) (u : Actor) (newId now : Nat)
    (act : MaraudeAction) (ex : MaraudeReport) (cu : UserRow)
    (hact : s.actions.find? (fun a => a.id == inp.maraudeActionId) = some act)
    (hperm : u.role = Role.admin ∨ act.associationId = u.associationId)
    (hex : s.reports.find? (fun r =>
      r.maraudeActionId == inp.maraudeActionId &&
      r.reportDate == inp.reportDate) = some ex)
    (hcu : s.users.find? (fun us => us.id == ex.createdBy) = some cu) :
    createReport s inp u newId now =
      (CreateResult.conflict ex.id (cu.firstName ++ " " ++ cu.lastName)
        ex.createdAt, s) ∧
    (s.reports.countP (fun r =>
        r.maraudeActionId == inp.maraudeActionId &&
        r.reportDate == inp.reportDate) = 1 →
      (createReport s inp u newId now).2.reports.countP (fun r =>
        r.maraudeActionId == inp.maraudeActionId &&
        r.reportDate == inp.reportDate) = 1) := by
  have hcond : ¬(u.role ≠ Role.admin ∧ act.associationId ≠ u.associationId) :=
    fun hc => hperm.elim (fun h1 => hc.1 h1) (fun h2 => hc.2 h2)
  have hres : createReport s inp u newId now =
      (CreateResult.conflict ex.id (cu.firstName ++ " " ++ cu.lastName)
        ex.createdAt, s) := by
    unfold createReport
    simp only [hact, hex, hcu, if_neg hcond]
  exact ⟨hres, fun h1 => by rw [hres]; exact h1⟩

theorem createReport_duplicate_conflict_witness :
    sampleStore.reports.find? (fun r =>
      r.maraudeActionId == sampleDupInput.maraudeActionId &&
      r.reportDate == sampleDupInput.reportDate) = some sampleReport ∧
    createReport sampleStore sampleDupInput sampleVolunteer 99 77 =
      (CreateResult.conflict 42 "Jean Dupont" 55, sampleStore) := by
  have h := createReport_duplicate_conflict sampleStore sampleDupInput
    sampleVolunteer 99 77 sampleAction sampleReport sampleUser
    (by decide) (Or.inr (by decide)) (by decide) (by decide)
  exact ⟨by decide, h.1⟩

/-- Claim C4, counterexample: a creation request whose only distribution
fails the quantity validation is answered 400, yet the report header has
already been inserted and stays in the store — the rows are not rolled
back, so a partial report remains. -/
theorem createReport_not_transactional :
    (createReport emptyReportStore sampleBadChildInput sampleVolunteer 100 0).1 =
      CreateResult.badRequest ∧
    ((createReport emptyReportStore sampleBadChildInput sampleVolunteer 100 0).2.reports.countP
      (fun r => r.id == 100)) = 1 := by decide

/-- Claim C4, amended: report creation is not transactional. The header
row is inserted first; when any child insert fails its validation the
request is answered 400 and the header (plus the children already
inserted) remains in the store. -/
theorem createReport_header_persists
    (s : Store) (inp : CreateReportInput) (u : Actor) (newId now : Nat)
    (act : MaraudeAction)
    (hact : s.actions.find? (fun a => a.id == inp.maraudeActionId) = some act)
    (hperm : u.role = Role.admin ∨ act.associationId = u.associationId)
    (hnodup : s.reports.find? (fun r =>
      r.maraudeActionId == inp.maraudeActionId &&
      r.reportDate == inp.reportDate) = none)
    (hfail : inp.distributions.all validDistribution = false ∨
             inp.alerts.all validAlert = false) :
    (createReport s inp u newId now).1 = CreateResult.badRequest ∧
    ∃ r ∈ (createReport s inp u newId now).2.reports,
      r.id = newId ∧ r.maraudeActionId = inp.maraudeActionId ∧
      r.reportDate = inp.reportDate := by
  have hcond : ¬(u.role ≠ Role.admin ∧ act.associationId ≠ u.associationId) :=
    fun hc => hperm.elim (fun h1 => hc.1 h1) (fun h2 => hc.2 h2)
  unfold createReport
  simp only [hact, hnodup, if_neg hcond]
  cases hdok : (insertDistributions newId inp.distributions).2
  · refine ⟨by simp [hdok], ?_⟩
    refine ⟨_, List.mem_append_right _ (List.mem_singleton_self _), rfl, rfl, rfl⟩
  · have haok : inp.alerts.all validAlert = false := by
      rcases hfail with hf | hf
      · rw [insertDistributions_ok_iff, hf] at hdok
        exact absurd hdok (by simp)
      · exact hf
    have ha2 : (insertAlerts newId inp.alerts).2 = false := by
      rw [insertAlerts_ok_iff, haok]
    refine ⟨by simp [hdok, ha2], ?_⟩
    simp only [hdok, ha2, Bool.not_true, Bool.not_false, if_true, if_false]
    refine ⟨_, List.mem_append_right _ (List.mem_singleton_self _), rfl, rfl, rfl⟩

theorem createReport_header_persists_witness :
    sampleBadChildInput.distributions.all validDistribution = false ∧
    (createReport emptyReportStore sampleBadChildInput sampleVolunteer 100 0).1 =
      CreateResult.badRequest ∧
    ∃ r ∈ (createReport emptyReportStore sampleBadChildInput sampleVolunteer 100 0).2.reports,
      r.id = 100 ∧ r.maraudeActionId = sampleBadChildInput.maraudeActionId ∧
      r.reportDate = sampleBadChildInput.reportDate := by
  have h := createReport_header_persists emptyReportStore sampleBadChildInput
    sampleVolunteer 100 0 sampleAction (by decide) (Or.inr (by decide))
    (by decide) (Or.inl (by decide))
  exact ⟨by decide, h.1, h.2⟩

/-- Claim C5: a non-admin update attempt on a validated report is
answered Forbidden, and the whole store — the report row and its child
collections included — is unchanged. -/
theorem updateReport_validated_forbidden
    (s : Store) (rid : Nat) (p : ReportPatch) (u : Actor)
    (r : MaraudeReport) (act : MaraudeAction)
    (hfind : s.reports.find? (fun x => x.id == rid) = some r)
    (hact : s.actions.find? (fun a => a.id == r.maraudeActionId) = some act)
    (hval : r.status = ReportStatus.validated) (hrole : u.role ≠ Role.admin) :
    updateReport s rid p u = (UpdateResult.forbidden, s) := by
  unfold updateReport
  simp only [hfind, hact]
  cases hce : canEditReport r act u
  · simp [hce]
  · have h1 : (r.status == ReportStatus.validated && !(u.role == Role.admin)) = true := by
      simp [hval, hrole]
    simp [hce, h1]

theorem updateReport_validated_forbidden_witness :
    sampleValidatedReport.status = ReportStatus.validated ∧
    sampleVolunteer.role ≠ Role.admin ∧
    updateReport sampleValidatedStore 43 sampleScalarPatch sampleVolunteer =
      (UpdateResult.forbidden, sampleValidatedStore) :=
  ⟨rfl, by decide,
   updateReport_validated_forbidden sampleValidatedStore 43 sampleScalarPatch
     sampleVolunteer sampleValidatedReport sampleAction (by decide) (by decide)
     rfl (by decide)⟩

theorem replaceDistributions_alerts (st : Store) (rid : Nat)
    (o : Option (List DistInput)) :
    (replaceDistributions st rid o).1.alerts = st.alerts := by
  cases o <;> rfl

theorem replaceDistributions_reports (st : Store) (rid : Nat)
    (o : Option (List DistInput)) :
    (replaceDistributions st rid o).1.reports = st.reports := by
  cases o <;> rfl

theorem replaceAlerts_distributions (st : Store) (rid : Nat)
    (o : Option (List AlertInput)) :
    (replaceAlerts st rid o).1.distributions = st.distributions := by
  cases o <;> rfl

theorem updateReport_ok_elim
    (s : Store) (rid : Nat) (p : ReportPatch) (u : Actor) (s2 : Store)
    (h : updateReport s rid p u = (UpdateResult.ok rid, s2)) :
    ∃ s1 : Store,
      s1.distributions = s.distributions ∧ s1.alerts = s.alerts ∧
      (replaceDistributions s1 rid p.distributions).2 = true ∧
      (replaceAlerts (replaceDistributions s1 rid p.distributions).1 rid
        p.alerts).2 = true ∧
      s2 = (replaceAlerts (replaceDistributions s1 rid p.distributions).1 rid
        p.alerts).1 := by
  unfold updateReport at h
  cases hfind : s.reports.find? (fun x => x.id == rid) with
  | none => simp [hfind] at h
  | some r =>
    cases hact : s.actions.find? (fun a => a.id == r.maraudeActionId) with
    | none => simp [hfind, hact] at h
    | some act =>
      cases hce : canEditReport r act u with
      | false => simp [hfind, hact, hce] at h
      | true =>
        cases hvb : r.status == ReportStatus.validated && !(u.role == Role.admin) with
        | true => simp [hfind, hact, hce, hvb] at h
        | false =>
          simp only [hfind, hact, hce, hvb, Bool.not_true, Bool.not_false,
            Bool.false_eq_true, if_false, if_true] at h
          set s1 : Store :=
            { s with reports :=
                s.reports.map (fun x => if x.id == rid then applyScalarPatch r p else x) }
            with hs1
          cases hdok : (replaceDistributions s1 rid p.distributions).2 with
          | false => simp [hdok] at h
          | true =>
            simp only [hdok, Bool.not_true, Bool.false_eq_true, if_false] at h
            cases haok : (replaceAlerts
                (replaceDistributions s1 rid p.distributions).1 rid p.alerts).2 with
            | false => simp [haok] at h
            | true =>
              simp only [haok, Bool.not_true, Bool.false_eq_true, if_false,
                Prod.mk.injEq] at h
              exact ⟨s1, rfl, rfl, hdok, haok, h.2.symm⟩

/-- Claim C6: when the patch carries the alerts key, the update leaves
exactly the patched alerts as the alert rows of this report (an empty
array leaves zero rows) and, when the distributions key is absent, the
distribution rows are untouched; and symmetrically with the two
collections exchanged. -/
theorem updateReport_children_frame
    (s : Store) (rid : Nat) (p : ReportPatch) (u : Actor) (s2 : Store)
    (h : updateReport s rid p u = (UpdateResult.ok rid, s2)) :
    (∀ als, p.alerts = some als →
      s2.alerts.filter (fun al => al.reportId == rid) =
        als.map (fun al => ⟨rid, al⟩)) ∧
    (p.distributions = none → s2.distributions = s.distributions) ∧
    (∀ ds, p.distributions = some ds →
      s2.distributions.filter (fun d => d.reportId == rid) =
        ds.map (fun d => ⟨rid, d.distributionTypeId, d.quantity, d.notes⟩)) ∧
    (p.alerts = none → s2.alerts = s.alerts) := by
  obtain ⟨s1, hd1, ha1, hdok, haok, hs2⟩ := updateReport_ok_elim s rid p u s2 h
  refine ⟨?_, ?_, ?_, ?_⟩
  · intro als hals
    rw [hs2]
    rw [hals] at haok ⊢
    simp only [replaceAlerts] at haok ⊢
    rw [insertAlerts_rows_of_ok _ _ haok]
    rw [List.filter_append, filter_not_filter,
      filter_map_all _ _ _ (fun al => by simp)]
    simp
  · intro hdn
    rw [hs2, replaceAlerts_distributions, hdn]
    exact hd1
  · intro ds hds
    rw [hs2, replaceAlerts_distributions]
    rw [hds] at hdok ⊢
    simp only [replaceDistributions] at hdok ⊢
    rw [insertDistributions_rows_of_ok _ _ hdok]
    rw [List.filter_append, filter_not_filter,
      filter_map_all _ _ _ (fun d => by simp)]
    simp
  · intro han
    rw [hs2, han]
    show (replaceDistributions s1 rid p.distributions).1.alerts = s.alerts
    rw [replaceDistributions_alerts]
    exact ha1

theorem updateReport_children_frame_witness :
    updateReport sampleChildStore 42 sampleAlertsPatch sampleVolunteer =
      (UpdateResult.ok 42, sampleChildStoreAfter) ∧
    sampleChildStoreAfter.alerts.filter (fun al => al.reportId == 42) =
      [⟨42, { sampleAlert with severity := Severity.critical }⟩] ∧
    sampleChildStoreAfter.distributions = sampleChildStore.distributions := by
  have h : updateReport sampleChildStore 42 sampleAlertsPatch sampleVolunteer =
      (UpdateResult.ok 42, sampleChildStoreAfter) := by decide
  refine ⟨h, ?_, ?_⟩
  · exact (updateReport_children_frame _ _ _ _ _ h).1 _ rfl
  · exact (updateReport_children_frame _ _ _ _ _ h).2.1 rfl

/-- Claim C7, counterexample: an admin who neither created the action
nor belongs to its association is denied by the `canEdit` check of the
mounted PUT /api/maraudes/:id handler, and the update is rejected with
Forbidden — the check has no standalone admin clause. -/
theorem canEditMaraude_admin_denied :
    sampleForeignAdmin.role = Role.admin ∧
    sampleForeignAdmin.id ≠ sampleAction.createdBy ∧
    sampleForeignAdmin.associationId ≠ sampleAction.associationId ∧
    canEditMaraude sampleAction sampleForeignAdmin = false ∧
    updateMaraudeAction sampleAction sampleMaraudePatch sampleForeignAdmin =
      Except.error MaraudeErr.forbidden :=
  ⟨rfl, by decide, by decide, by decide, rfl⟩

/-- Claim C7, amended: in the mounted maraudes route an admin passes the
`canEdit` check exactly when the admin created the action or belongs to
its association; only the alternate route revision shipped alongside
grants every admin unconditional edit access. -/
theorem canEditMaraude_admin_scope (a : MaraudeAction) (u : Actor)
    (h : u.role = Role.admin) :
    (canEditMaraude a u = true ↔
      (a.createdBy = u.id ∨ a.associationId = u.associationId)) ∧
    canEditMaraudeVariant a u = true := by
  have hb : (u.role == Role.admin) = true := by simp [h]
  constructor
  · simp only [canEditMaraude, hb, Bool.or_true, Bool.and_true,
      Bool.or_eq_true, beq_iff_eq]
    exact or_congr Iff.rfl eq_comm
  · simp [canEditMaraudeVariant, hb]

theorem canEditMaraude_admin_scope_witness :
    sampleForeignAdmin.role = Role.admin ∧
    (canEditMaraude sampleAction sampleForeignAdmin = true ↔
      (sampleAction.createdBy = sampleForeignAdmin.id ∨
       sampleAction.associationId = sampleForeignAdmin.associationId)) ∧
    canEditMaraudeVariant sampleAction sampleForeignAdmin = true :=
  ⟨rfl, (canEditMaraude_admin_scope sampleAction sampleForeignAdmin rfl).1,
   (canEditMaraude_admin_scope sampleAction sampleForeignAdmin rfl).2⟩

theorem validDayOfWeek_bounds {d : Nat} {o : Option Nat}
    (h : validDayOfWeek o = true) (hs : o = some d) : 1 ≤ d ∧ d ≤ 7 := by
  subst hs
  simpa [validDayOfWeek] using h

/-- Claim C9: every action accepted by the create handler, and every
action produced by the update handler from an action already satisfying
the invariant, satisfies recurrence exclusivity: recurring implies a
dayOfWeek in 1..7 and no scheduledDate, one-time implies a scheduledDate
and no dayOfWeek. -/
theorem maraude_recurrence_exclusive :
    (∀ inp u newId row, createMaraudeAction inp u newId = Except.ok row →
      recurrenceExclusive row) ∧
    (∀ a inp u row, recurrenceExclusive a →
      updateMaraudeAction a inp u = Except.ok row → recurrenceExclusive row) := by
  constructor
  · intro inp u newId row h
    unfold createMaraudeAction at h
    cases hb : inp.isRecurring.getD true
    case false =>
      simp only [hb, Bool.false_and, Bool.not_false, Bool.true_and,
        Bool.false_eq_true, eq_self_iff_true, if_true, if_false] at h
      cases hsd : inp.scheduledDate with
      | none => simp [hsd] at h
      | some sd =>
        simp only [hsd, Option.isNone_some, Bool.false_eq_true, if_false] at h
        split at h
        · simp at h
        · split at h
          · cases h with
            | refl => simp [recurrenceExclusive]
          · simp at h
    case true =>
      simp only [hb, Bool.true_and, Bool.not_true, Bool.false_and,
        Bool.false_eq_true, eq_self_iff_true, if_true, if_false] at h
      cases hdow : inp.dayOfWeek with
      | none => simp [hdow] at h
      | some d =>
        simp only [hdow, Option.isNone_some, Bool.false_eq_true, if_false] at h
        split at h
        · simp at h
        · split at h
          · rename_i hco hv
            cases h with
            | refl =>
              have hbd := validDayOfWeek_bounds hv rfl
              exact ⟨fun _ => ⟨⟨d, rfl, hbd.1, hbd.2⟩, rfl⟩,
                fun hr => by simp at hr⟩
          · simp at h
  · intro a inp u row hinv h
    unfold updateMaraudeAction at h
    split at h
    · simp at h
    · split at h
      · simp at h
      · split at h
        · simp at h
        · rename_i hguardR hguardS
          cases hrec : inp.isRecurring with
          | none =>
            simp only [hrec] at h
            split at h
            · cases h with
              | refl => exact ⟨fun hr => hinv.1 hr, fun hr => hinv.2 hr⟩
            · simp at h
          | some rcr =>
            simp only [hrec] at h
            cases rcr
            case false =>
              cases hsd : inp.scheduledDate with
              | none =>
                rw [hrec] at hguardS
                simp [hsd] at hguardS
              | some sd =>
                simp only [Bool.false_eq_true, if_false] at h
                split at h
                · cases h with
                  | refl => simp [recurrenceExclusive, hsd]
                · simp at h
            case true =>
              cases hdow : inp.dayOfWeek with
              | none =>
                rw [hrec] at hguardR
                simp [hdow] at hguardR
              | some d =>
                simp only [eq_self_iff_true, if_true] at h
                split at h
                · rename_i hv
                  cases h with
                  | refl =>
                    have hv2 : validDayOfWeek (some d) = true := by
                      simpa [hdow] using hv
                    have hbd := validDayOfWeek_bounds hv2 rfl
                    refine ⟨fun _ => ⟨⟨d, ?_, hbd.1, hbd.2⟩, ?_⟩,
                      fun hr => by simp at hr⟩
                    · simp [hdow]
                    · simp
                · simp at h

theorem maraude_recurrence_exclusive_witness :
    createMaraudeAction sampleCreateMaraude sampleVolunteer 5 =
      Except.ok sampleCreatedRow ∧
    recurrenceExclusive sampleCreatedRow ∧
    updateMaraudeAction sampleCreatedRow sampleSwitchPatch sampleVolunteer =
      Except.ok sampleSwitchedRow ∧
    recurrenceExclusive sampleSwitchedRow := by
  have h1 : createMaraudeAction sampleCreateMaraude sampleVolunteer 5 =
      Except.ok sampleCreatedRow := rfl
  have hinv : recurrenceExclusive sampleCreatedRow :=
    maraude_recurrence_exclusive.1 _ _ _ _ h1
  have h2 : updateMaraudeAction sampleCreatedRow sampleSwitchPatch sampleVolunteer =
      Except.ok sampleSwitchedRow := rfl
  exact ⟨h1, hinv, h2, maraude_recurrence_exclusive.2 _ _ _ _ hinv h2⟩

/-- Claim C10: the duration computed by calculateDuration and attached
to GET /api/reports/:id is endTime minus startTime in minutes with both
times on the same calendar day, hence negative for a report whose
endTime is earlier than its startTime. -/
theorem calculateDuration_spec (s : Store) (rid : Nat) (r : MaraudeReport)
    (hfind : s.reports.find? (fun x => x.id == rid) = some r) :
    getReportDuration s rid = some r.calculateDuration ∧
    60 * r.calculateDuration =
      (r.endTime.toSeconds : ℚ) - (r.startTime.toSeconds : ℚ) ∧
    (r.endTime.toSeconds < r.startTime.toSeconds → r.calculateDuration < 0) := by
  refine ⟨by simp [getReportDuration, hfind], ?_, ?_⟩
  · unfold MaraudeReport.calculateDuration
    push_cast
    ring
  · intro h
    unfold MaraudeReport.calculateDuration
    apply div_neg_of_neg_of_pos _ (by norm_num)
    have h2 : (r.endTime.toSeconds : ℤ) - (r.startTime.toSeconds : ℤ) < 0 := by
      omega
    exact_mod_cast h2

theorem calculateDuration_spec_witness :
    sampleOvernightStore.reports.find? (fun x => x.id == 44) =
      some sampleOvernightReport ∧
    getReportDuration sampleOvernightStore 44 =
      some sampleOvernightReport.calculateDuration ∧
    sampleOvernightReport.calculateDuration < 0 := by
  have hf : sampleOvernightStore.reports.find? (fun x => x.id == 44) =
      some sampleOvernightReport := by decide
  exact ⟨hf, (calculateDuration_spec _ _ _ hf).1,
    (calculateDuration_spec _ _ _ hf).2.2 (by decide)⟩

end Mapraude
